import Mathlib

/-!
Shallow embedding of the Market Signal Aggregation & Prediction Ranking Engine
of the btc-investment-strategy repository.

Python floats are modelled as exact rationals (`ℚ`); Python `int` as `Int`;
`datetime.now()` readings as a `Nat` clock parameter threaded explicitly.
All definitions are translated from the source files
`src/analysis/predictor.py`, `src/analysis/technical.py`, `src/data/ohlcv.py`.
-/

set_option maxHeartbeats 1000000
set_option maxRecDepth 100000
set_option allowUnsafeReducibility true
attribute [semireducible] Rat.mul Rat.add Rat.sub Rat.div Rat.inv Rat.normalize Rat.blt mkRat Rat.ofScientific

namespace Btc

/-- Key price levels attached to a prediction (`KeyLevels` dataclass in
`predictor.py`). -/
structure KeyLevels where
  entry : ℚ
  stop_loss : ℚ
  take_profit : List ℚ
  deriving DecidableEq

/-- One validated prediction pattern (`PredictionPattern` dataclass in
`predictor.py`).  `created_at` models the `datetime.now()` default factory:
the wall-clock reading at the moment the object is constructed. -/
structure PredictionPattern where
  rank : Int
  probability : ℚ
  direction : String
  target_price : ℚ
  timeframe : String
  pattern_name : String
  reasoning : String
  key_levels : KeyLevels
  created_at : Nat
  deriving DecidableEq

/-- One raw candidate item of the generative model's JSON response, after the
per-field coercions attempted in `Predictor._parse_patterns` (`int(...)`,
`float(...)`, `str(...)`, and elementwise `float` over `take_profit`).
A field is `none` exactly when the corresponding lookup/coercion would raise
`KeyError`/`ValueError`/`TypeError` in Python. -/
structure RawCandidate where
  rank : Option Int
  probability : Option ℚ
  direction : Option String
  target_price : Option ℚ
  timeframe : Option String
  pattern_name : Option String
  reasoning : Option String
  kl_entry : Option ℚ
  kl_stop_loss : Option ℚ
  kl_take_profit : Option (List ℚ)
  deriving DecidableEq

/-- The `try` block of `Predictor._parse_patterns`: a candidate survives iff
every required field coerces, and then yields a `PredictionPattern` carrying
the input's (soon to be overwritten) rank and a fresh `created_at` stamp.
Any single failure discards the candidate (`except ... continue`). -/
def coerceCandidate (now : Nat) (c : RawCandidate) : Option PredictionPattern :=
  match c.rank, c.probability, c.direction, c.target_price, c.timeframe,
      c.pattern_name, c.reasoning, c.kl_entry, c.kl_stop_loss, c.kl_take_profit with
  | some r, some pr, some d, some t, some tf, some pn, some rs, some e, some sl, some tp =>
      some ⟨r, pr, d, t, tf, pn, rs, ⟨e, sl, tp⟩, now⟩
  | _, _, _, _, _, _, _, _, _, _ => none

/-- Insert into a list already sorted by probability descending, placing the
new element before the first strictly-smaller probability.  Folding this over
the input reproduces exactly the stable descending sort performed by
`patterns.sort(key=lambda x: x.probability, reverse=True)`. -/
def insertByProb (p : PredictionPattern) : List PredictionPattern → List PredictionPattern
  | [] => [p]
  | q :: qs => if p.probability ≥ q.probability then p :: q :: qs else q :: insertByProb p qs

/-- Stable sort by probability descending (`list.sort(key=..., reverse=True)`
is stable; insertion sort with `insertByProb` is the same stable order). -/
def sortByProbDesc : List PredictionPattern → List PredictionPattern
  | [] => []
  | p :: ps => insertByProb p (sortByProbDesc ps)

/-- Rank reassignment loop `for i, pattern in enumerate(patterns, 1):
pattern.rank = i`. -/
def assignRanks : Int → List PredictionPattern → List PredictionPattern
  | _, [] => []
  | i, p :: ps => { p with rank := i } :: assignRanks (i + 1) ps

/-- `Predictor._parse_patterns`: coerce each candidate (discarding failures),
sort survivors by probability descending (stable), reassign ranks 1..K.
`now` is the clock value used for the `created_at` default of the patterns
constructed during this call. -/
def parse_patterns (raw : List RawCandidate) (now : Nat) : List PredictionPattern :=
  assignRanks 1 (sortByProbDesc (raw.filterMap (coerceCandidate now)))

/-- One OHLCV candle, restricted to the price fields actually read by the
detectors and the support/resistance calculator (`high`, `low`, `close`;
`open`/`volume`/`timestamp` are never consulted by the embedded code). -/
structure Candle where
  high : ℚ
  low : ℚ
  close : ℚ
  deriving DecidableEq

/-- One detected chart pattern: the dict literal returned by the detectors of
`TechnicalAnalyzer` (`price_level` is absent from the triangle dicts, hence
`Option`). -/
structure DetectedPattern where
  name : String
  direction : String
  confidence : ℚ
  price_level : Option ℚ
  description : String
  deriving DecidableEq

/-- The latest row `df.iloc[-1]` as read by `TechnicalAnalyzer._analyze_trend`:
`close` is a required OHLCV column, each indicator column is `none` when
absent from the DataFrame. -/
structure LatestRow where
  close : ℚ
  sma_20 : Option ℚ
  sma_50 : Option ℚ
  sma_200 : Option ℚ
  rsi_14 : Option ℚ
  macd : Option ℚ
  macd_signal : Option ℚ
  adx_14 : Option ℚ
  deriving DecidableEq

/-- The SMA-cross block of `_analyze_trend` (guarded by `"sma_20" in
df.columns and "sma_50" in df.columns`). -/
def smaCrossFactor (row : LatestRow) : List (String × ℚ × ℚ) :=
  match row.sma_20, row.sma_50 with
  | some s20, some s50 =>
      if s20 > s50 then [("sma_cross", 1, 25)] else [("sma_cross", -1, 25)]
  | _, _ => []

/-- The price-vs-SMA200 block of `_analyze_trend`. -/
def sma200Factor (row : LatestRow) : List (String × ℚ × ℚ) :=
  match row.sma_200 with
  | some s200 =>
      if row.close > s200 then [("above_sma200", 1, 20)] else [("above_sma200", -1, 20)]
  | none => []

/-- The RSI block of `_analyze_trend`. -/
def rsiFactor (row : LatestRow) : List (String × ℚ × ℚ) :=
  match row.rsi_14 with
  | some rsi =>
      if rsi > 70 then [("rsi", 1, 15)]
      else if rsi < 30 then [("rsi", -1, 15)]
      else if rsi > 50 then [("rsi", 1/2, 10)]
      else [("rsi", -1/2, 10)]
  | none => []

/-- The MACD block of `_analyze_trend`. -/
def macdFactor (row : LatestRow) : List (String × ℚ × ℚ) :=
  match row.macd, row.macd_signal with
  | some m, some s => if m > s then [("macd", 1, 20)] else [("macd", -1, 20)]
  | _, _ => []

/-- The ADX block of `_analyze_trend`. -/
def adxFactor (row : LatestRow) : List (String × ℚ × ℚ) :=
  match row.adx_14 with
  | some adx =>
      if adx > 25 then [("adx", 1, min (adx / 50 * 20) 20)] else [("adx", 0, 5)]
  | none => []

/-- The `strength_factors` list built by `_analyze_trend`: one
`(name, direction, weight)` triple per available signal, in source order
(SMA cross, price vs SMA200, RSI, MACD, ADX). -/
def strengthFactors (row : LatestRow) : List (String × ℚ × ℚ) :=
  smaCrossFactor row ++ sma200Factor row ++ rsiFactor row ++ macdFactor row ++
    adxFactor row

/-- Round half to even at integer precision, the behaviour of Python 3
`round` on an exactly-representable value. -/
def roundHalfEven (x : ℚ) : ℤ :=
  let f := ⌊x⌋
  let r := x - f
  if r < 1/2 then f
  else if r > 1/2 then f + 1
  else if f % 2 = 0 then f else f + 1

/-- Python `round(x, 1)`: round half to even at one decimal. -/
def round1 (x : ℚ) : ℚ := (roundHalfEven (10 * x) : ℚ) / 10

/-- `TechnicalAnalyzer._analyze_trend`: weighted fusion of the available
signals into a `(trend, strength)` pair, `strength` rounded to one decimal
(the zero-weight early return yields `50.0` unrounded). -/
def analyze_trend (row : LatestRow) : String × ℚ :=
  let fs := strengthFactors row
  let bullish_score := ((fs.filter fun f => decide (f.2.1 > 0)).map fun f => f.2.2).sum
  let bearish_score := ((fs.filter fun f => decide (f.2.1 < 0)).map fun f => f.2.2).sum
  let total_weight := (fs.map fun f => f.2.2).sum
  if total_weight = 0 then ("neutral", 50)
  else
    let net_score := (bullish_score - bearish_score) / total_weight * 100
    if net_score > 20 then ("bullish", round1 (min (50 + net_score / 2) 100))
    else if net_score < -20 then ("bearish", round1 (min (50 + |net_score|/2) 100))
    else ("neutral", round1 (50 - |net_score|))

/-- First index of the maximum together with the maximum (pandas
`Series.idxmax` paired with `Series.max`); `none` on the empty series. -/
def idxmax : List ℚ → Option (Nat × ℚ)
  | [] => none
  | x :: xs =>
      match idxmax xs with
      | none => some (0, x)
      | some (i, m) => if m > x then some (i + 1, m) else some (0, x)

/-- First index of the minimum together with the minimum (pandas
`Series.idxmin` paired with `Series.min`); `none` on the empty series. -/
def idxmin : List ℚ → Option (Nat × ℚ)
  | [] => none
  | x :: xs =>
      match idxmin xs with
      | none => some (0, x)
      | some (i, m) => if m < x then some (i + 1, m) else some (0, x)

/-- Number of rows selected by the boolean mask
`(series > cutoff) & (series.index != excluded)` over a positionally-indexed
series. -/
def countAbove (vals : List ℚ) (cutoff : ℚ) (excluded : Nat) : Nat :=
  ((List.range vals.length).filter
    (fun k => decide (vals.getD k 0 > cutoff) && decide (k ≠ excluded))).length

/-- Number of rows selected by the boolean mask
`(series < cutoff) & (series.index != excluded)`. -/
def countBelow (vals : List ℚ) (cutoff : ℚ) (excluded : Nat) : Nat :=
  ((List.range vals.length).filter
    (fun k => decide (vals.getD k 0 < cutoff) && decide (k ≠ excluded))).length

/-- The fixed dict returned for a double top at price level `lvl`. -/
def doubleTopPattern (lvl : ℚ) : DetectedPattern :=
  { name := "Double Top", direction := "bearish", confidence := 6/10,
    price_level := some lvl,
    description := "ダブルトップパターンが形成中。反転下落の可能性。" }

/-- The fixed dict returned for a double bottom at price level `lvl`. -/
def doubleBottomPattern (lvl : ℚ) : DetectedPattern :=
  { name := "Double Bottom", direction := "bullish", confidence := 6/10,
    price_level := some lvl,
    description := "ダブルボトムパターンが形成中。反転上昇の可能性。" }

/-- `TechnicalAnalyzer._detect_double_top_bottom`: over the trailing 50
candles, first look for a second high strictly above `max − 2%·max` at an
index other than the first argmax (double top); only if none exists, look
for a second low strictly below `min + 2%·min` away from the first argmin
(double bottom). -/
def detect_double_top_bottom (df : List Candle) : Option DetectedPattern :=
  if df.length < 50 then none
  else
    let recent := df.drop (df.length - 50)
    let highs := recent.map Candle.high
    let lows := recent.map Candle.low
    match idxmax highs with
    | none => none
    | some (maxIdx, maxVal) =>
        if 1 ≤ countAbove highs (maxVal - maxVal * (2/100)) maxIdx then
          some (doubleTopPattern maxVal)
        else
          match idxmin lows with
          | none => none
          | some (minIdx, minVal) =>
              if 1 ≤ countBelow lows (minVal + minVal * (2/100)) minIdx then
                some (doubleBottomPattern minVal)
              else none

/-- Least-squares slope of `ys` against x = 0,1,...,n−1: the degree-1
coefficient of `np.polyfit(range(n), ys, 1)`. -/
def lsSlope (ys : List ℚ) : ℚ :=
  let n : ℚ := ys.length
  let xs : List ℚ := (List.range ys.length).map (fun k => (k : ℚ))
  let xbar := xs.sum / n
  let ybar := ys.sum / n
  ((xs.zip ys).map fun p => (p.1 - xbar) * (p.2 - ybar)).sum /
    (xs.map fun x => (x - xbar) ^ 2).sum

/-- `TechnicalAnalyzer._detect_triangle`: least-squares slopes of the trailing
30 highs and lows; converging lines classify as symmetrical / descending /
ascending triangle, first matching branch wins. -/
def detect_triangle (df : List Candle) : Option DetectedPattern :=
  if df.length < 30 then none
  else
    let recent := df.drop (df.length - 30)
    let high_slope := lsSlope (recent.map Candle.high)
    let low_slope := lsSlope (recent.map Candle.low)
    if high_slope < 0 ∧ low_slope > 0 then
      some { name := "Symmetrical Triangle", direction := "neutral", confidence := 1/2,
             price_level := none,
             description := "対称三角形が形成中。ブレイクアウト方向に注目。" }
    else if high_slope < 0 ∧ |low_slope| < |high_slope| * (3/10) then
      some { name := "Descending Triangle", direction := "bearish", confidence := 55/100,
             price_level := none,
             description := "下降三角形が形成中。下方ブレイクの可能性。" }
    else if low_slope > 0 ∧ |high_slope| < |low_slope| * (3/10) then
      some { name := "Ascending Triangle", direction := "bullish", confidence := 55/100,
             price_level := none,
             description := "上昇三角形が形成中。上方ブレイクの可能性。" }
    else none

/-- Maximum of a list of rationals (pandas `Series.max`). -/
def listMax : List ℚ → Option ℚ
  | [] => none
  | x :: xs => match listMax xs with
    | none => some x
    | some m => some (max x m)

/-- Minimum of a list of rationals (pandas `Series.min`). -/
def listMin : List ℚ → Option ℚ
  | [] => none
  | x :: xs => match listMin xs with
    | none => some x
    | some m => some (min x m)

/-- Insertion step for ascending sort of rationals. -/
def insertAsc (x : ℚ) : List ℚ → List ℚ
  | [] => [x]
  | y :: ys => if x ≤ y then x :: y :: ys else y :: insertAsc x ys

/-- Python `sorted(l)` (values ascending). -/
def sortAsc : List ℚ → List ℚ
  | [] => []
  | x :: xs => insertAsc x (sortAsc xs)

/-- Insertion step for descending sort of rationals. -/
def insertDesc (x : ℚ) : List ℚ → List ℚ
  | [] => [x]
  | y :: ys => if x ≥ y then x :: y :: ys else y :: insertDesc x ys

/-- Python `sorted(l, reverse=True)` (values descending). -/
def sortDesc : List ℚ → List ℚ
  | [] => []
  | x :: xs => insertDesc x (sortDesc xs)

/-- The dict returned by `calculate_support_resistance`. -/
structure SRLevels where
  pivot : ℚ
  resistance : List ℚ
  support : List ℚ
  deriving DecidableEq

/-- `calculate_support_resistance` from `src/data/ohlcv.py`: classic pivot
levels from the trailing `lookback` candles, plus the 3 highest highs and 3
lowest lows (`nlargest`/`nsmallest` value multisets), resistance sorted
descending and support ascending.  `none` exactly when the trailing window is
empty, where the Python code would raise an `IndexError` on `iloc[-1]`. -/
def calculate_support_resistance (df : List Candle) (lookback : Nat) : Option SRLevels :=
  let recent := df.drop (df.length - lookback)
  match listMax (recent.map Candle.high), listMin (recent.map Candle.low),
      (recent.map Candle.close).getLast? with
  | some high, some low, some close =>
      let pivot := (high + low + close) / 3
      let r1 := 2 * pivot - low
      let r2 := pivot + (high - low)
      let r3 := high + 2 * (pivot - low)
      let s1 := 2 * pivot - high
      let s2 := pivot - (high - low)
      let s3 := low - 2 * (high - pivot)
      let recent_highs := (sortDesc (recent.map Candle.high)).take 3
      let recent_lows := (sortAsc (recent.map Candle.low)).take 3
      some { pivot := pivot,
             resistance := sortDesc ([r1, r2, r3] ++ recent_highs),
             support := sortAsc ([s1, s2, s3] ++ recent_lows) }
  | _, _, _ => none

/-- Projection away of the `created_at` stamp, for stating determinism of
`parse_patterns` modulo the wall clock. -/
def stripCreatedAt (p : PredictionPattern) :
    Int × ℚ × String × ℚ × String × String × String × KeyLevels :=
  (p.rank, p.probability, p.direction, p.target_price, p.timeframe,
   p.pattern_name, p.reasoning, p.key_levels)

/-- Rewriting the `created_at` stamp of a pattern. -/
def setCreatedAt (now : Nat) (p : PredictionPattern) : PredictionPattern :=
  { p with created_at := now }

/-! ### Concrete fixtures used by witnesses and counterexamples -/

/-- A fully valid raw candidate with probability `pr` (input rank 9). -/
def mkCand (pr : ℚ) : RawCandidate :=
  ⟨some 9, some pr, some "bullish", some 100, some "1week", some "P", some "R",
   some 95, some 90, some [101]⟩

/-- The pattern `mkCand pr` coerces to at clock value 0 (input rank kept,
before reassignment). -/
def mkPat (pr : ℚ) : PredictionPattern :=
  ⟨9, pr, "bullish", 100, "1week", "P", "R", ⟨95, 90, [101]⟩, 0⟩

/-- A raw candidate whose `rank` coercion fails (e.g. the key is missing). -/
def badCand : RawCandidate :=
  ⟨none, some (1/2), some "bullish", some 100, some "1week", some "P", some "R",
   some 95, some 90, some [101]⟩

/-- A 50-candle window: max high 100 at index 0, a second high of exactly 98
at index 1 (on the 2% boundary), all other highs 50; lows strictly increasing
so no double bottom triggers either. -/
def c4cex : List Candle :=
  ⟨100, 50, 70⟩ :: ⟨98, 51, 70⟩ :: (List.range 48).map (fun k => ⟨50, 52 + k, 70⟩)

/-- A 50-candle window: max high 100 at index 0 and a second high 99 (strictly
inside the 2% band) at index 1. -/
def c4good : List Candle :=
  ⟨100, 50, 70⟩ :: ⟨99, 51, 70⟩ :: (List.range 48).map (fun k => ⟨50, 52 + k, 70⟩)

/-- A 50-candle window satisfying both the double-top condition (highs 100 and
99) and the double-bottom condition (lows 10 and 10.1). -/
def c9win : List Candle :=
  ⟨100, 10, 70⟩ :: ⟨99, 101/10, 70⟩ :: (List.range 48).map (fun k => ⟨50, 20 + k, 70⟩)

/-- A 30-candle window with strictly decreasing highs and strictly increasing
lows. -/
def triWin : List Candle := (List.range 30).map (fun k => ⟨100 - k, k, 50⟩)

/-- A flat candle: high = low = close = 100. -/
def flatCandle100 : Candle := ⟨100, 100, 100⟩

/-- A latest row whose only available indicator column is `rsi_14` = 60. -/
def rowRsi60 : LatestRow := ⟨50, none, none, none, some 60, none, none, none⟩

/-! ### Helper lemmas about the validator/ranker pipeline -/

/-- A successful coercion copies the raw candidate's probability field. -/
theorem coerce_probability {now : Nat} {c : RawCandidate} {p : PredictionPattern}
    (h : coerceCandidate now c = some p) : c.probability = some p.probability := by
  rcases c with ⟨r, pr, d, t, tf, pn, rs, e, sl, tp⟩
  cases r <;> cases pr <;> cases d <;> cases t <;> cases tf <;> cases pn <;>
    cases rs <;> cases e <;> cases sl <;> cases tp <;>
    simp_all [coerceCandidate]
  subst h
  rfl

/-- Membership through the insertion step of the stable sort. -/
theorem mem_insertByProb {a p : PredictionPattern} {l : List PredictionPattern} :
    a ∈ insertByProb p l ↔ a = p ∨ a ∈ l := by
  induction l with
  | nil => simp [insertByProb]
  | cons q qs ih =>
      by_cases h : p.probability ≥ q.probability
      · simp [insertByProb, h]
      · simp [insertByProb, h, ih]
        tauto

/-- The stable sort permutes, hence preserves, membership. -/
theorem mem_sortByProbDesc {a : PredictionPattern} {l : List PredictionPattern} :
    a ∈ sortByProbDesc l ↔ a ∈ l := by
  induction l with
  | nil => simp [sortByProbDesc]
  | cons q qs ih => simp [sortByProbDesc, mem_insertByProb, ih]

/-- Rank reassignment only rewrites the rank field: every output element has
the probability of some input element. -/
theorem assignRanks_probability {p : PredictionPattern} :
    ∀ {i : Int} {l : List PredictionPattern}, p ∈ assignRanks i l →
      ∃ q, q ∈ l ∧ p.probability = q.probability := by
  intro i l
  induction l generalizing i with
  | nil => simp [assignRanks]
  | cons q qs ih =>
      intro hp
      rcases List.mem_cons.mp hp with hp | hp
      · exact ⟨q, List.mem_cons_self _ _, by simp [hp]⟩
      · obtain ⟨q', hq', hpq⟩ := ih hp
        exact ⟨q', List.mem_cons_of_mem _ hq', hpq⟩

/-- C3: any raw candidate whose coercion fails is discarded individually — the
batch result is the same as if that single candidate were absent — and when
every candidate fails, `validateAndRank` returns the empty list rather than
raising an error. -/
theorem parse_patterns_discard (now : Nat) (berr aft raw : List RawCandidate)
    (c : RawCandidate) (hc : coerceCandidate now c = none) :
    parse_patterns (berr ++ c :: aft) now = parse_patterns (berr ++ aft) now ∧
    ((∀ d ∈ raw, coerceCandidate now d = none) → parse_patterns raw now = []) := by
  constructor
  · unfold parse_patterns
    rw [List.filterMap_append, List.filterMap_append, List.filterMap_cons_none hc]
  · intro h
    unfold parse_patterns
    rw [List.filterMap_eq_nil_iff.mpr h]
    rfl

/-- Witness for C3 at a concrete batch: dropping the failing candidate leaves
the result unchanged, and an all-failing batch yields `[]`. -/
theorem parse_patterns_discard_witness :
    coerceCandidate 0 badCand = none ∧
    parse_patterns ([mkCand (1/2)] ++ badCand :: []) 0 =
      parse_patterns ([mkCand (1/2)] ++ []) 0 ∧
    parse_patterns [badCand] 0 = [] :=
  ⟨by decide,
   (parse_patterns_discard 0 [mkCand (1/2)] [] [badCand] badCand (by decide)).1,
   (parse_patterns_discard 0 [mkCand (1/2)] [] [badCand] badCand (by decide)).2
     (by decide)⟩

/-- C1: five valid raw candidates carrying probabilities
[0.1, 0.5, 0.3, 0.5, 0.2] in input order are returned sorted
[0.5, 0.5, 0.3, 0.2, 0.1], the two 0.5 entries in their original relative
order (second input entry before fourth), with ranks reassigned to exactly
1,2,3,4,5 no matter which rank values the candidates proposed. -/
theorem parse_patterns_roundtrip (now : Nat) (c₁ c₂ c₃ c₄ c₅ : RawCandidate)
    (p₁ p₂ p₃ p₄ p₅ : PredictionPattern)
    (h₁ : coerceCandidate now c₁ = some p₁) (h₂ : coerceCandidate now c₂ = some p₂)
    (h₃ : coerceCandidate now c₃ = some p₃) (h₄ : coerceCandidate now c₄ = some p₄)
    (h₅ : coerceCandidate now c₅ = some p₅)
    (q₁ : c₁.probability = some (1/10)) (q₂ : c₂.probability = some (1/2))
    (q₃ : c₃.probability = some (3/10)) (q₄ : c₄.probability = some (1/2))
    (q₅ : c₅.probability = some (1/5)) :
    parse_patterns [c₁, c₂, c₃, c₄, c₅] now =
      [{p₂ with rank := 1}, {p₄ with rank := 2}, {p₃ with rank := 3},
       {p₅ with rank := 4}, {p₁ with rank := 5}] := by
  have e₁ : p₁.probability = 1/10 := by
    have := coerce_probability h₁; rw [q₁] at this; exact (Option.some_inj.mp this).symm
  have e₂ : p₂.probability = 1/2 := by
    have := coerce_probability h₂; rw [q₂] at this; exact (Option.some_inj.mp this).symm
  have e₃ : p₃.probability = 3/10 := by
    have := coerce_probability h₃; rw [q₃] at this; exact (Option.some_inj.mp this).symm
  have e₄ : p₄.probability = 1/2 := by
    have := coerce_probability h₄; rw [q₄] at this; exact (Option.some_inj.mp this).symm
  have e₅ : p₅.probability = 1/5 := by
    have := coerce_probability h₅; rw [q₅] at this; exact (Option.some_inj.mp this).symm
  have efm : List.filterMap (coerceCandidate now) [c₁, c₂, c₃, c₄, c₅] =
      [p₁, p₂, p₃, p₄, p₅] := by
    simp [List.filterMap_cons, h₁, h₂, h₃, h₄, h₅]
  unfold parse_patterns
  rw [efm]
  norm_num [sortByProbDesc, insertByProb, e₁, e₂, e₃, e₄, e₅, assignRanks]

/-- Witness for C1 at concrete candidates (all proposing input rank 9). -/
theorem parse_patterns_roundtrip_witness :
    parse_patterns [mkCand (1/10), mkCand (1/2), mkCand (3/10), mkCand (1/2),
      mkCand (1/5)] 0 =
      [{mkPat (1/2) with rank := 1}, {mkPat (1/2) with rank := 2},
       {mkPat (3/10) with rank := 3}, {mkPat (1/5) with rank := 4},
       {mkPat (1/10) with rank := 5}] :=
  parse_patterns_roundtrip 0 (mkCand (1/10)) (mkCand (1/2)) (mkCand (3/10))
    (mkCand (1/2)) (mkCand (1/5)) (mkPat (1/10)) (mkPat (1/2)) (mkPat (3/10))
    (mkPat (1/2)) (mkPat (1/5)) (by decide) (by decide) (by decide) (by decide)
    (by decide) (by decide) (by decide) (by decide) (by decide) (by decide)

/-! ### Determinism of the validator/ranker modulo the construction clock -/

/-- Changing the clock value only rewrites the `created_at` stamp of a
coerced candidate. -/
theorem coerce_time_shift (t s : Nat) (c : RawCandidate) :
    coerceCandidate t c = (coerceCandidate s c).map (setCreatedAt t) := by
  rcases c with ⟨r, pr, d, t', tf, pn, rs, e, sl, tp⟩
  cases r <;> cases pr <;> cases d <;> cases t' <;> cases tf <;> cases pn <;>
    cases rs <;> cases e <;> cases sl <;> cases tp <;> rfl

/-- Survivor extraction at clock `t` is survivor extraction at clock `s`
restamped. -/
theorem filterMap_coerce_time (t s : Nat) (raw : List RawCandidate) :
    raw.filterMap (coerceCandidate t) =
      (raw.filterMap (coerceCandidate s)).map (setCreatedAt t) := by
  induction raw with
  | nil => rfl
  | cons c cs ih =>
      rw [List.filterMap_cons, List.filterMap_cons, coerce_time_shift t s c]
      cases h : coerceCandidate s c <;> simp [h, ih]

/-- Restamping does not touch the probability key of the sort. -/
theorem setCreatedAt_probability (t : Nat) (p : PredictionPattern) :
    (setCreatedAt t p).probability = p.probability := rfl

/-- The sort's insertion step commutes with restamping. -/
theorem insertByProb_setCreatedAt (t : Nat) (p : PredictionPattern)
    (l : List PredictionPattern) :
    insertByProb (setCreatedAt t p) (l.map (setCreatedAt t)) =
      (insertByProb p l).map (setCreatedAt t) := by
  induction l with
  | nil => rfl
  | cons q qs ih =>
      simp only [List.map_cons, insertByProb, setCreatedAt_probability]
      by_cases h : p.probability ≥ q.probability <;> simp [h, ih]

/-- The stable sort commutes with restamping. -/
theorem sortByProbDesc_setCreatedAt (t : Nat) (l : List PredictionPattern) :
    sortByProbDesc (l.map (setCreatedAt t)) = (sortByProbDesc l).map (setCreatedAt t) := by
  induction l with
  | nil => rfl
  | cons q qs ih =>
      simp only [List.map_cons, sortByProbDesc, ih, insertByProb_setCreatedAt]

/-- Rank reassignment commutes with restamping. -/
theorem assignRanks_setCreatedAt (t : Nat) (l : List PredictionPattern) :
    ∀ i : Int, assignRanks i (l.map (setCreatedAt t)) = (assignRanks i l).map (setCreatedAt t) := by
  induction l with
  | nil => intro i; rfl
  | cons q qs ih =>
      intro i
      simp only [List.map_cons, assignRanks, ih]
      rfl

/-- The whole pipeline at clock `t` is the pipeline at clock `s` restamped. -/
theorem parse_patterns_time_shift (raw : List RawCandidate) (t s : Nat) :
    parse_patterns raw t = (parse_patterns raw s).map (setCreatedAt t) := by
  unfold parse_patterns
  rw [filterMap_coerce_time t s, sortByProbDesc_setCreatedAt, assignRanks_setCreatedAt]

/-- C8 counterexample: two invocations of `validateAndRank` on the same raw
input but at different clock readings (as any two successive real calls are)
produce different outputs — the `created_at` stamps differ, so the function is
not a pure function of the raw input alone. -/
theorem parse_patterns_clock_cex :
    parse_patterns [mkCand 1] 0 ≠ parse_patterns [mkCand 1] 1 := by decide

/-- C8 (amended): calling `validateAndRank` twice on the same raw input list
yields outputs identical in every field except the `created_at` construction
stamp; modulo that stamp the function is deterministic with no hidden
state. -/
theorem parse_patterns_deterministic_mod_clock (raw : List RawCandidate) (t₁ t₂ : Nat) :
    (parse_patterns raw t₁).map stripCreatedAt = (parse_patterns raw t₂).map stripCreatedAt := by
  rw [parse_patterns_time_shift raw t₁ 0, parse_patterns_time_shift raw t₂ 0,
    List.map_map, List.map_map]
  rfl

/-! ### Probability range of the validator/ranker output -/

/-- C7 counterexample: the validator performs no range check on probabilities.
A raw candidate proposing probability 2 survives coercion and is returned,
so not every output probability lies in (0, 1]. -/
theorem probability_range_cex :
    ¬ (∀ p ∈ parse_patterns [mkCand 2] 0,
        0 < p.probability ∧ p.probability ≤ 1) := by decide

/-- C7 (amended): every output pattern's probability is the coerced
probability of one of the raw candidates; in particular, whenever all raw
probabilities that coerce lie in (0, 1], so does every output probability.
The range itself is not enforced by the code. -/
theorem parse_patterns_probability_bounds (raw : List RawCandidate) (now : Nat)
    (h : ∀ c ∈ raw, ∀ q : ℚ, c.probability = some q → 0 < q ∧ q ≤ 1) :
    ∀ p ∈ parse_patterns raw now, 0 < p.probability ∧ p.probability ≤ 1 := by
  intro p hp
  unfold parse_patterns at hp
  obtain ⟨q, hq, hpq⟩ := assignRanks_probability hp
  rw [mem_sortByProbDesc] at hq
  obtain ⟨c, hc, hcq⟩ := List.mem_filterMap.mp hq
  have hprob := coerce_probability hcq
  rw [hpq]
  exact h c hc q.probability hprob

/-- Witness for C7 (amended) at a concrete one-candidate batch with
probability 1/2: the single output pattern's probability is in (0, 1]. -/
theorem parse_patterns_probability_bounds_witness :
    0 < ({ mkPat (1/2) with rank := 1 } : PredictionPattern).probability ∧
      ({ mkPat (1/2) with rank := 1 } : PredictionPattern).probability ≤ 1 :=
  parse_patterns_probability_bounds [mkCand (1/2)] 0 (by
    intro c hc q hq
    rw [List.mem_singleton] at hc
    subst hc
    rw [show (mkCand (1/2)).probability = some (1/2) from rfl] at hq
    rw [← Option.some_inj.mp hq]
    norm_num) { mkPat (1/2) with rank := 1 } (by decide)

/-! ### The trend/strength classifier against the spec's formula -/

/-- Summing a filtered list equals summing with the predicate as an
indicator. -/
theorem sum_filter_decide {α : Type} (p : α → Prop) [DecidablePred p] (g : α → ℚ)
    (l : List α) :
    ((l.filter fun a => decide (p a)).map g).sum =
      (l.map fun a => if p a then g a else 0).sum := by
  induction l with
  | nil => rfl
  | cons a l ih => by_cases h : p a <;> simp [List.filter_cons, h, ih]

/-- Net score exactly as the spec words it: (Σ positive-direction weight −
Σ negative-direction weight) / (Σ all weights) × 100. -/
def netScoreSpec (fs : List (String × ℚ × ℚ)) : ℚ :=
  ((fs.map fun f => if f.2.1 > 0 then f.2.2 else 0).sum -
   (fs.map fun f => if f.2.1 < 0 then f.2.2 else 0).sum) /
  (fs.map fun f => f.2.2).sum * 100

/-- The trend/strength fusion exactly as claim C2 words it, over a given
signal list: neutral/50 on zero total weight, bullish above net score 20,
bearish below −20, neutral in between, strength rounded to one decimal. -/
def trendFusionSpec (fs : List (String × ℚ × ℚ)) : String × ℚ :=
  if (fs.map fun f => f.2.2).sum = 0 then ("neutral", 50)
  else
    let ns := netScoreSpec fs
    if ns > 20 then ("bullish", round1 (min (50 + ns / 2) 100))
    else if ns < -20 then ("bearish", round1 (min (50 + |ns| / 2) 100))
    else ("neutral", round1 (50 - |ns|))

/-- Each signal block contributes at most one factor. -/
theorem smaCrossFactor_length (row : LatestRow) : (smaCrossFactor row).length ≤ 1 := by
  rcases row with ⟨c, s20, s50, s200, rsi, m, ms, adx⟩
  unfold smaCrossFactor
  rcases s20 with _ | a <;> rcases s50 with _ | b <;>
    simp <;> split_ifs <;> simp

/-- The SMA200 block contributes at most one factor. -/
theorem sma200Factor_length (row : LatestRow) : (sma200Factor row).length ≤ 1 := by
  rcases row with ⟨c, s20, s50, s200, rsi, m, ms, adx⟩
  unfold sma200Factor
  rcases s200 with _ | a <;> simp <;> split_ifs <;> simp

/-- The RSI block contributes at most one factor. -/
theorem rsiFactor_length (row : LatestRow) : (rsiFactor row).length ≤ 1 := by
  rcases row with ⟨c, s20, s50, s200, rsi, m, ms, adx⟩
  unfold rsiFactor
  rcases rsi with _ | a <;> simp <;> split_ifs <;> simp

/-- The MACD block contributes at most one factor. -/
theorem macdFactor_length (row : LatestRow) : (macdFactor row).length ≤ 1 := by
  rcases row with ⟨c, s20, s50, s200, rsi, m, ms, adx⟩
  unfold macdFactor
  rcases m with _ | a <;> rcases ms with _ | b <;>
    simp <;> split_ifs <;> simp

/-- The ADX block contributes at most one factor. -/
theorem adxFactor_length (row : LatestRow) : (adxFactor row).length ≤ 1 := by
  rcases row with ⟨c, s20, s50, s200, rsi, m, ms, adx⟩
  unfold adxFactor
  rcases adx with _ | a <;> simp <;> split_ifs <;> simp

/-- C2: the classifier computes exactly the spec's net-score fusion — net
score = (Σ positive weights − Σ negative weights)/(Σ all weights)×100 over
the up-to-five available signals, (neutral, 50.0) on zero total weight,
bullish with strength min(50+netScore/2, 100) above 20, bearish with
min(50+|netScore|/2, 100) below −20, neutral with 50−|netScore| otherwise,
strength rounded to one decimal. -/
theorem analyze_trend_spec (row : LatestRow) :
    analyze_trend row = trendFusionSpec (strengthFactors row) ∧
    (strengthFactors row).length ≤ 5 := by
  constructor
  · simp only [analyze_trend, trendFusionSpec, netScoreSpec,
      sum_filter_decide (fun f : String × ℚ × ℚ => f.2.1 > 0) (fun f => f.2.2),
      sum_filter_decide (fun f : String × ℚ × ℚ => f.2.1 < 0) (fun f => f.2.2)]
  · have l1 := smaCrossFactor_length row
    have l2 := sma200Factor_length row
    have l3 := rsiFactor_length row
    have l4 := macdFactor_length row
    have l5 := adxFactor_length row
    simp only [strengthFactors, List.length_append]
    omega

/-! ### Strength range of the classifier -/

/-- Rounding to one decimal cannot take a value at least 30 below 30. -/
theorem round1_ge30 {x : ℚ} (h : 30 ≤ x) : 30 ≤ round1 x := by
  have h1 : (300 : ℤ) ≤ ⌊10 * x⌋ := Int.le_floor.mpr (by push_cast; linarith)
  have h2 : (300 : ℚ) ≤ (⌊10 * x⌋ : ℚ) := by exact_mod_cast h1
  simp only [round1, roundHalfEven]
  split_ifs <;> (push_cast; linarith)

/-- Rounding to one decimal cannot take a value at most 100 above 100. -/
theorem round1_le100 {x : ℚ} (h : x ≤ 100) : round1 x ≤ 100 := by
  have hfl : (⌊10 * x⌋ : ℚ) ≤ 10 * x := Int.floor_le _
  have hup : (⌊10 * x⌋ : ℚ) ≤ 1000 := by linarith
  simp only [round1, roundHalfEven]
  split_ifs with h1 h2 h3
  · linarith
  · have hqa : (⌊10 * x⌋ : ℚ) + 1/2 ≤ 10 * x := by linarith [not_lt.mp h1]
    have hlt : ⌊10 * x⌋ < 1000 := by
      have : (⌊10 * x⌋ : ℚ) < 1000 := by linarith
      exact_mod_cast this
    have : (⌊10 * x⌋ : ℚ) + 1 ≤ 1000 := by exact_mod_cast hlt
    push_cast
    linarith
  · linarith
  · have hqa : (⌊10 * x⌋ : ℚ) + 1/2 ≤ 10 * x := by linarith [not_lt.mp h1]
    have hlt : ⌊10 * x⌋ < 1000 := by
      have : (⌊10 * x⌋ : ℚ) < 1000 := by linarith
      exact_mod_cast this
    have : (⌊10 * x⌋ : ℚ) + 1 ≤ 1000 := by exact_mod_cast hlt
    push_cast
    linarith

/-- Range of the three nonzero-weight fusion branches, for an arbitrary net
score. -/
theorem fusion_branch_range (ns : ℚ) :
    30 ≤ (if ns > 20 then (("bullish":String), round1 (min (50 + ns / 2) 100))
      else if ns < -20 then ("bearish", round1 (min (50 + |ns| / 2) 100))
      else ("neutral", round1 (50 - |ns|))).2 ∧
    (if ns > 20 then (("bullish":String), round1 (min (50 + ns / 2) 100))
      else if ns < -20 then ("bearish", round1 (min (50 + |ns| / 2) 100))
      else ("neutral", round1 (50 - |ns|))).2 ≤ 100 := by
  split_ifs with h1 h2 <;> dsimp only
  · exact ⟨round1_ge30 (le_min (by linarith) (by norm_num)),
      round1_le100 (min_le_right _ _)⟩
  · exact ⟨round1_ge30 (le_min (by linarith [abs_nonneg ns]) (by norm_num)),
      round1_le100 (min_le_right _ _)⟩
  · have hub : |ns| ≤ 20 := abs_le.mpr ⟨by linarith, by linarith⟩
    have hnn : (0:ℚ) ≤ |ns| := abs_nonneg ns
    exact ⟨round1_ge30 (by linarith), round1_le100 (by linarith)⟩

/-- C10: whenever at least one indicator signal is available (total weight
nonzero), the returned strength lies in [30, 100]: the neutral branch gives
50−|netScore| with |netScore| ≤ 20, and the bullish/bearish branches give
values above 60 clamped at 100 — strictly tighter than the spec's 0–100
range. -/
theorem analyze_trend_strength_range (row : LatestRow)
    (h : ((strengthFactors row).map fun f => f.2.2).sum ≠ 0) :
    30 ≤ (analyze_trend row).2 ∧ (analyze_trend row).2 ≤ 100 := by
  simp only [analyze_trend]
  rw [if_neg h]
  exact fusion_branch_range _

/-- Witness for C10 at a row whose only indicator is RSI = 60. -/
theorem analyze_trend_strength_range_witness :
    ((strengthFactors rowRsi60).map fun f => f.2.2).sum ≠ 0 ∧
    (30 ≤ (analyze_trend rowRsi60).2 ∧ (analyze_trend rowRsi60).2 ≤ 100) :=
  ⟨by decide, analyze_trend_strength_range rowRsi60 (by decide)⟩

/-! ### Double top / double bottom detector -/

/-- C4 counterexample: a 50-candle window whose maximum high is 100 (first
attained at index 0) and whose index 1 carries a high of exactly 98 — within
2% of the maximum in the claim's inclusive sense (high ≥ 98) and at a distinct
index — yet the detector emits no pattern at all, because the code's mask is
the strict `high > max − 2%·max`, i.e. `> 98`. -/
theorem double_top_boundary_cex :
    c4cex.length = 50 ∧
    idxmax (c4cex.map Candle.high) = some (0, 100) ∧
    (c4cex.map Candle.high).getD 1 0 ≥ 98 ∧ (1 : Nat) ≠ 0 ∧
    detect_double_top_bottom c4cex = none := by decide

/-- C4 (amended): for every 50-candle window whose maximum high is 100 (first
attained at index `i`) and in which some index `j ≠ i` has a high strictly
greater than 98 (strictly within 2% of the maximum — the code's comparison is
strict), the detector emits exactly the pattern "Double Top", bearish,
confidence 0.6, price level 100. -/
theorem double_top_detects (df : List Candle) (i j : Nat) (hlen : df.length = 50)
    (hmax : idxmax (df.map Candle.high) = some (i, 100))
    (hj : j < 50) (hji : j ≠ i)
    (hhigh : (df.map Candle.high).getD j 0 > 98) :
    detect_double_top_bottom df = some (doubleTopPattern 100) := by
  have hnot : ¬ df.length < 50 := by omega
  have hdrop : df.drop (df.length - 50) = df := by
    rw [hlen]
    simp
  have hcount : 1 ≤ countAbove (df.map Candle.high) (100 - 100 * (2/100)) i := by
    unfold countAbove
    have hjmem : j ∈ (List.range (df.map Candle.high).length).filter
        (fun k => decide ((df.map Candle.high).getD k 0 > 100 - 100 * (2/100)) &&
          decide (k ≠ i)) := by
      rw [List.mem_filter, List.mem_range, List.length_map, hlen]
      refine ⟨hj, ?_⟩
      simp only [Bool.and_eq_true, decide_eq_true_eq]
      constructor
      · have hcut : (100 : ℚ) - 100 * (2/100) = 98 := by norm_num
        rw [hcut]
        exact hhigh
      · exact hji
    exact List.length_pos.mpr (List.ne_nil_of_mem hjmem)
  simp only [detect_double_top_bottom]
  rw [if_neg hnot, hdrop, hmax]
  simp only []
  rw [if_pos hcount]

/-- Witness for C4 (amended): the same window with the second high at 99
instead of 98 does produce the double top. -/
theorem double_top_detects_witness :
    detect_double_top_bottom c4good = some (doubleTopPattern 100) :=
  double_top_detects c4good 0 1 (by decide) (by decide) (by decide) (by decide)
    (by decide)

/-- C9: when both the double-top mask (a second high strictly within 2% of the
window maximum, away from the first argmax) and the double-bottom mask (a
second low strictly within 2% of the window minimum, away from the first
argmin) select at least one row, the detector returns only the "Double Top"
pattern: the bottom check sits in the top check's else branch, so the top
takes precedence and at most one pattern is returned. -/
theorem double_top_precedence (df : List Candle) (i iMin : Nat) (m mMin : ℚ)
    (hlen : 50 ≤ df.length)
    (hmax : idxmax ((df.drop (df.length - 50)).map Candle.high) = some (i, m))
    (htop : 1 ≤ countAbove ((df.drop (df.length - 50)).map Candle.high)
      (m - m * (2/100)) i)
    (hmin : idxmin ((df.drop (df.length - 50)).map Candle.low) = some (iMin, mMin))
    (hbot : 1 ≤ countBelow ((df.drop (df.length - 50)).map Candle.low)
      (mMin + mMin * (2/100)) iMin) :
    detect_double_top_bottom df = some (doubleTopPattern m) := by
  simp only [detect_double_top_bottom]
  rw [if_neg (by omega : ¬ df.length < 50), hmax]
  simp only []
  rw [if_pos htop]

/-- Witness for C9: a window with highs 100 and 99 (double top) and lows 10
and 10.1 (double bottom) yields only the double top. -/
theorem double_top_precedence_witness :
    detect_double_top_bottom c9win = some (doubleTopPattern 100) :=
  double_top_precedence c9win 0 0 100 10 (by decide) (by decide) (by decide)
    (by decide) (by decide)

/-! ### Triangle detector -/

/-- The symmetrical-triangle dict returned by `_detect_triangle`. -/
def symTrianglePattern : DetectedPattern :=
  { name := "Symmetrical Triangle", direction := "neutral", confidence := 1/2,
    price_level := none,
    description := "対称三角形が形成中。ブレイクアウト方向に注目。" }

/-- C5: for every window of at least 30 candles whose least-squares slope over
the trailing 30 highs is negative and over the trailing 30 lows is positive,
the triangle detector emits the "Symmetrical Triangle" pattern, neutral,
confidence 0.5 — and, the detector returning at most one `Option` value
through an if/elif chain, no other triangle pattern alongside it. -/
theorem symmetrical_triangle_detects (df : List Candle) (hlen : 30 ≤ df.length)
    (hhs : lsSlope ((df.drop (df.length - 30)).map Candle.high) < 0)
    (hls : lsSlope ((df.drop (df.length - 30)).map Candle.low) > 0) :
    detect_triangle df = some symTrianglePattern := by
  simp only [detect_triangle]
  rw [if_neg (by omega : ¬ df.length < 30), if_pos ⟨hhs, hls⟩]
  rfl

/-- Witness for C5 at a 30-candle window with highs 100−k and lows k. -/
theorem symmetrical_triangle_detects_witness :
    detect_triangle triWin = some symTrianglePattern :=
  symmetrical_triangle_detects triWin (by decide) (by decide) (by decide)

/-! ### Support/resistance calculator -/

/-- Maximum of a constant list. -/
theorem listMax_replicate {m : Nat} (hm : 0 < m) (x : ℚ) :
    listMax (List.replicate m x) = some x := by
  induction m with
  | zero => exact absurd hm (by omega)
  | succ k ih =>
      cases k with
      | zero => rfl
      | succ k2 =>
          rw [List.replicate_succ]
          show (match listMax (List.replicate (k2 + 1) x) with
                | none => some x
                | some m => some (max x m)) = some x
          rw [ih (by omega)]
          simp [max_self]

/-- Minimum of a constant list. -/
theorem listMin_replicate {m : Nat} (hm : 0 < m) (x : ℚ) :
    listMin (List.replicate m x) = some x := by
  induction m with
  | zero => exact absurd hm (by omega)
  | succ k ih =>
      cases k with
      | zero => rfl
      | succ k2 =>
          rw [List.replicate_succ]
          show (match listMin (List.replicate (k2 + 1) x) with
                | none => some x
                | some m => some (min x m)) = some x
          rw [ih (by omega)]
          simp [min_self]

/-- Last element of a constant list. -/
theorem getLast?_replicate {m : Nat} (hm : 0 < m) (x : ℚ) :
    (List.replicate m x).getLast? = some x := by
  induction m with
  | zero => exact absurd hm (by omega)
  | succ k ih =>
      cases k with
      | zero => rfl
      | succ k2 =>
          rw [List.replicate_succ, List.replicate_succ, List.getLast?_cons_cons,
            ← List.replicate_succ]
          exact ih (by omega)

/-- Inserting the repeated value into a constant list extends it. -/
theorem insertDesc_replicate (m : Nat) (x : ℚ) :
    insertDesc x (List.replicate m x) = List.replicate (m + 1) x := by
  cases m with
  | zero => rfl
  | succ k =>
      rw [List.replicate_succ]
      simp [insertDesc, List.replicate_succ]

/-- Descending sort fixes constant lists. -/
theorem sortDesc_replicate (m : Nat) (x : ℚ) :
    sortDesc (List.replicate m x) = List.replicate m x := by
  induction m with
  | zero => rfl
  | succ k ih =>
      rw [List.replicate_succ]
      simp [sortDesc, ih, insertDesc_replicate, List.replicate_succ]

/-- Inserting the repeated value into a constant list extends it
(ascending). -/
theorem insertAsc_replicate (m : Nat) (x : ℚ) :
    insertAsc x (List.replicate m x) = List.replicate (m + 1) x := by
  cases m with
  | zero => rfl
  | succ k =>
      rw [List.replicate_succ]
      simp [insertAsc, List.replicate_succ]

/-- Ascending sort fixes constant lists. -/
theorem sortAsc_replicate (m : Nat) (x : ℚ) :
    sortAsc (List.replicate m x) = List.replicate m x := by
  induction m with
  | zero => rfl
  | succ k ih =>
      rw [List.replicate_succ]
      simp [sortAsc, ih, insertAsc_replicate, List.replicate_succ]

/-- C6: on any non-empty trailing window the calculator returns
pivot = (highMax + lowMin + lastClose)/3 with the classic pivot levels
R1 = 2·pivot − lowMin, R2 = pivot + (highMax − lowMin),
R3 = highMax + 2·(pivot − lowMin), S1 = 2·pivot − highMax,
S2 = pivot − (highMax − lowMin), S3 = lowMin − 2·(highMax − pivot),
resistance = those levels plus the 3 highest highs sorted descending and
support = the S-levels plus the 3 lowest lows sorted ascending; and a flat
window of n ≥ 3 candles with high = low = close = 100 yields pivot = 100 and
every resistance/support level equal to 100, without erroring. -/
theorem support_resistance_spec (df : List Candle) (h l c : ℚ) (n : Nat)
    (hmax : listMax ((df.drop (df.length - 50)).map Candle.high) = some h)
    (hmin : listMin ((df.drop (df.length - 50)).map Candle.low) = some l)
    (hclose : ((df.drop (df.length - 50)).map Candle.close).getLast? = some c)
    (hn : 3 ≤ n) :
    calculate_support_resistance df 50 =
      some { pivot := (h + l + c) / 3,
             resistance := sortDesc ([2 * ((h + l + c) / 3) - l,
               (h + l + c) / 3 + (h - l), h + 2 * ((h + l + c) / 3 - l)] ++
               (sortDesc ((df.drop (df.length - 50)).map Candle.high)).take 3),
             support := sortAsc ([2 * ((h + l + c) / 3) - h,
               (h + l + c) / 3 - (h - l), l - 2 * (h - (h + l + c) / 3)] ++
               (sortAsc ((df.drop (df.length - 50)).map Candle.low)).take 3) } ∧
    calculate_support_resistance (List.replicate n flatCandle100) 50 =
      some { pivot := 100, resistance := List.replicate 6 100,
             support := List.replicate 6 100 } := by
  constructor
  · simp only [calculate_support_resistance]
    rw [hmax, hmin, hclose]
  · have hdropeq : (List.replicate n flatCandle100).drop
        ((List.replicate n flatCandle100).length - 50) =
        List.replicate (n - (n - 50)) flatCandle100 := by
      rw [List.length_replicate, List.drop_replicate]
    have hm3 : 3 ≤ n - (n - 50) := by omega
    have hhigh : Candle.high flatCandle100 = 100 := rfl
    have hlow : Candle.low flatCandle100 = 100 := rfl
    have hclose2 : Candle.close flatCandle100 = 100 := rfl
    simp only [calculate_support_resistance, hdropeq, List.map_replicate,
      hhigh, hlow, hclose2]
    rw [listMax_replicate (by omega), listMin_replicate (by omega),
      getLast?_replicate (by omega), sortDesc_replicate, sortAsc_replicate,
      List.take_replicate, show min 3 (n - (n - 50)) = 3 by omega]
    simp only []
    norm_num
    all_goals decide

/-- Witness for C6: a concrete 5-candle flat window, with the flat conjunct
instantiated at n = 3. -/
theorem support_resistance_spec_witness :
    calculate_support_resistance (List.replicate 3 flatCandle100) 50 =
      some { pivot := 100, resistance := List.replicate 6 100,
             support := List.replicate 6 100 } :=
  (support_resistance_spec (List.replicate 5 flatCandle100) 100 100 100 3
    (by decide) (by decide) (by decide) (by decide)).2

end Btc
